import Mathlib

/-!
Verification of the xinput2-for-games device-partitioning tool.

The development shallowly embeds the Python sources
(`src/xinput2_for_games/core.py`, `cli.py`, `main.py`, `kodi_gui.py`):

* the XInput2 device universe becomes a list of `Device` records;
* the three external `xinput` invocations (`create-master`, `reattach`,
  `remove-master ... AttachToMaster p k`) become a `Cmd` trace together
  with a state-transition function `runCmd` modelling the X server's
  reaction to each command;
* the stateful functions of `core.py` become state-passing Lean
  functions returning the trace of issued commands and the final state;
* the blocking event watchers become functions over an explicit list of
  incoming X events;
* Python string idioms (slicing by code points, `endswith`, substring
  `in`, f-string interpolation) are modelled over `String.data`, which
  matches Python's sequence-of-code-points semantics.
-/

namespace XInput2

/-! ## Constants (core.py lines 14-26, X11 protocol values) -/

def MASTER_POINTER : Nat := 1
def MASTER_KEYBOARD : Nat := 2
def SLAVE_POINTER : Nat := 3
def SLAVE_KEYBOARD : Nat := 4
def VIRTUAL_CORE_POINTER : Nat := 2
def VIRTUAL_CORE_KEYBOARD : Nat := 3
def ENTER_KEYCODE : Nat := 36

/-- X11 `GenericEvent` opcode, the value of `dpy.extension_event.GenericEvent`. -/
def GenericEvent : Nat := 35
/-- XInput2 `RawKeyPress` event subtype (`xinput.RawKeyPress`). -/
def RawKeyPress : Nat := 13
/-- XInput2 `RawButtonPress` event subtype (`xinput.RawButtonPress`). -/
def RawButtonPress : Nat := 15

/-! ## Python string primitives, modelled over code-point lists -/

/-- Python `s[:-n]` (drop the last `n` code points). -/
def pyDropRight (s : String) (n : Nat) : String :=
  ⟨s.data.take (s.data.length - n)⟩

/-- Python `s.endswith(suf)`. -/
def pyEndsWith (s suf : String) : Bool :=
  suf.data.isSuffixOf s.data

/-- `sub` occurs as a contiguous block of `l`. -/
def containsSeq (sub : List Char) : List Char → Bool
  | [] => sub.isEmpty
  | c :: rest => sub.isPrefixOf (c :: rest) || containsSeq sub rest

/-- Python `sub in s` (substring containment). -/
def pyContains (s sub : String) : Bool :=
  containsSeq sub.data s.data

/-! ## Data model: one XInput2 device record -/

/-- One entry of `dpy.xinput_query_device(xinput.AllDevices).devices`:
the fields the repository reads (`deviceid`, `name`, `use`, `attachment`). -/
structure Device where
  deviceid : Nat
  name : String
  use : Nat
  attachment : Nat
deriving DecidableEq

/-! ## Device enumerator (core.py lines 39-78, 106-161) -/

def get_slave_keyboards (devices : List Device) : List Device :=
  devices.filter (fun d => d.use == SLAVE_KEYBOARD)

def get_slave_pointers (devices : List Device) : List Device :=
  devices.filter (fun d => d.use == SLAVE_POINTER)

def get_master_keyboards (devices : List Device) : List Device :=
  devices.filter (fun d => d.use == MASTER_KEYBOARD)

def get_master_pointers (devices : List Device) : List Device :=
  devices.filter (fun d => d.use == MASTER_POINTER)

/-- `find_master_keyboard_by_name` (core.py lines 63-69): first master
keyboard whose name is `f"{name} keyboard"`. -/
def find_master_keyboard_by_name (devices : List Device) (name : String) :
    Option Device :=
  (get_master_keyboards devices).find? (fun d => d.name == name ++ " keyboard")

/-- `find_master_pointer_by_name` (core.py lines 72-78). -/
def find_master_pointer_by_name (devices : List Device) (name : String) :
    Option Device :=
  (get_master_pointers devices).find? (fun d => d.name == name ++ " pointer")

/-- Name stem of a master pointer, as computed at core.py line 145:
`pointer.name[:-8] if pointer.name.endswith(' pointer') else pointer.name`. -/
def extractPfx (s : String) : String :=
  if pyEndsWith s " pointer" then pyDropRight s 8 else s

/-- `get_extra_masters` (core.py lines 106-125): the non-Virtual-core
master pointers, each paired with the first master keyboard matching its
name stem. -/
def get_extra_masters (devices : List Device) : List (Device × Device) :=
  let master_pointers :=
    devices.filter (fun d => d.use == MASTER_POINTER && d.name != "Virtual core pointer")
  let master_keyboards :=
    devices.filter (fun d => d.use == MASTER_KEYBOARD && d.name != "Virtual core keyboard")
  master_pointers.filterMap (fun p =>
    if pyEndsWith p.name " pointer" then
      (master_keyboards.find? (fun k => k.name == pyDropRight p.name 8 ++ " keyboard")).map
        (fun k => (p, k))
    else none)

/-- `get_slave_keyboard_ids` (core.py lines 152-155): slave keyboard ids
excluding devices whose name contains `XTEST`. -/
def get_slave_keyboard_ids (devices : List Device) : List Nat :=
  ((get_slave_keyboards devices).filter (fun d => !pyContains d.name "XTEST")).map
    (fun d => d.deviceid)

/-- `get_slave_pointer_ids` (core.py lines 158-161). -/
def get_slave_pointer_ids (devices : List Device) : List Nat :=
  ((get_slave_pointers devices).filter (fun d => !pyContains d.name "XTEST")).map
    (fun d => d.deviceid)

/-- `get_device_name_by_id` (core.py lines 237-243): name of the first
device with the given id, else the `Unknown (ID: ...)` fallback. -/
def get_device_name_by_id (devices : List Device) (device_id : Nat) : String :=
  match devices.find? (fun d => d.deviceid == device_id) with
  | some d => d.name
  | none => "Unknown (ID: " ++ toString device_id ++ ")"

/-! ## External commands and the X-server state transition they cause -/

/-- The three `subprocess.run(['xinput', ...])` invocations issued by
`create_master`, `reattach_device` and `remove_master`
(core.py lines 81-103). -/
inductive Cmd where
  | createMaster (name : String)
  | reattach (deviceId masterId : Nat)
  | removeMaster (masterPointerId returnPointerId returnKeyboardId : Nat)
deriving DecidableEq

def isCreateCmd : Cmd → Bool
  | .createMaster _ => true
  | _ => false

def isReattachCmd : Cmd → Bool
  | .reattach _ _ => true
  | _ => false

def isRemoveCmd : Cmd → Bool
  | .removeMaster _ _ _ => true
  | _ => false

/-- The live X device hierarchy: the device list plus the next device id
the server will hand out (ids are server-assigned, see spec section 3). -/
structure XState where
  devices : List Device
  nextId : Nat
deriving DecidableEq

/-- Effect of `xinput create-master <name>`: the server adds a master
pointer `<name> pointer` and a master keyboard `<name> keyboard` with
fresh ids. -/
def applyCreateMaster (name : String) (s : XState) : XState :=
  { devices := s.devices ++
      [ ⟨s.nextId, name ++ " pointer", MASTER_POINTER, s.nextId + 1⟩,
        ⟨s.nextId + 1, name ++ " keyboard", MASTER_KEYBOARD, s.nextId⟩ ],
    nextId := s.nextId + 2 }

/-- Effect of `xinput reattach <deviceId> <masterId>`: the slave device
with the given id now reports through the given master. -/
def applyReattach (deviceId masterId : Nat) (s : XState) : XState :=
  { s with devices := s.devices.map (fun d =>
      if d.deviceid == deviceId && (d.use == SLAVE_POINTER || d.use == SLAVE_KEYBOARD)
      then { d with attachment := masterId } else d) }

/-- Per-device effect of removing the master pair `(pid, kbName)`: the
pair's two master devices disappear; a slave pointer attached to the
removed pointer moves to `retP`; a slave keyboard attached to the removed
keyboard (id `kid?`) moves to `retK`; everything else is untouched. -/
def removeStep (pid retP retK : Nat) (kbName : String) (kid? : Option Nat)
    (d : Device) : Option Device :=
  if d.use == MASTER_POINTER && d.deviceid == pid then none
  else if d.use == MASTER_KEYBOARD && d.name == kbName then none
  else if d.use == SLAVE_POINTER && d.attachment == pid then
    some { d with attachment := retP }
  else if d.use == SLAVE_KEYBOARD && kid?.any (fun k => d.attachment == k) then
    some { d with attachment := retK }
  else some d

/-- Effect of `xinput remove-master <pid> AttachToMaster <retP> <retK>`:
the server deletes the master pair addressed by the pointer id and sends
the orphaned slave pointers/keyboards to the given fallback masters. -/
def applyRemoveMaster (pid retP retK : Nat) (s : XState) : XState :=
  match s.devices.find? (fun d => d.use == MASTER_POINTER && d.deviceid == pid) with
  | none => s
  | some p =>
    { s with
      devices := s.devices.filterMap
        (removeStep pid retP retK (extractPfx p.name ++ " keyboard")
          ((s.devices.find? (fun d => d.use == MASTER_KEYBOARD &&
              d.name == extractPfx p.name ++ " keyboard")).map (fun d => d.deviceid))) }

def runCmd (c : Cmd) (s : XState) : XState :=
  match c with
  | .createMaster n => applyCreateMaster n s
  | .reattach d m => applyReattach d m s
  | .removeMaster pid rp rk => applyRemoveMaster pid rp rk s

/-! ## cleanup_extra_masters (core.py lines 128-149) -/

/-- The `for pointer, keyboard in extra_masters` loop: for every snapshot
pair whose name stem is not in `keep_names`, issue
`remove_master(pointer.deviceid, VIRTUAL_CORE_POINTER, VIRTUAL_CORE_KEYBOARD)`. -/
def cleanupLoop (keep : List String) :
    List (Device × Device) → XState → List Cmd × XState
  | [], s => ([], s)
  | pr :: rest, s =>
    if keep.contains (extractPfx pr.1.name) then cleanupLoop keep rest s
    else
      let c := Cmd.removeMaster pr.1.deviceid VIRTUAL_CORE_POINTER VIRTUAL_CORE_KEYBOARD
      let r := cleanupLoop keep rest (runCmd c s)
      (c :: r.1, r.2)

/-- `cleanup_extra_masters(dpy, keep_names)`: snapshot the extra masters
once, then remove the ones whose stem is not kept. -/
def cleanup_extra_masters (keep : List String) (s : XState) : List Cmd × XState :=
  cleanupLoop keep (get_extra_masters s.devices) s

/-! ## setup_players (core.py lines 246-305) -/

/-- The master-creation loop (core.py lines 264-274), restricted to the
players after the first (index `0` only logs): create a master pair for
`n` when `find_master_keyboard_by_name(dpy, n)` finds nothing. -/
def createLoop : List String → XState → List Cmd × XState
  | [], s => ([], s)
  | n :: ns, s =>
    match find_master_keyboard_by_name s.devices n with
    | some _ => createLoop ns s
    | none =>
      let r := createLoop ns (runCmd (Cmd.createMaster n) s)
      (Cmd.createMaster n :: r.1, r.2)

/-- The keyboard-reattachment loop (core.py lines 276-289): the first
claim goes to `VIRTUAL_CORE_KEYBOARD`; a later claim goes to the master
keyboard found by name, and is skipped when none is found. -/
def reattachKbdLoop : Bool → List (String × Nat) → XState → List Cmd × XState
  | _, [], s => ([], s)
  | first, pk :: rest, s =>
    let mid? : Option Nat :=
      if first then some VIRTUAL_CORE_KEYBOARD
      else (find_master_keyboard_by_name s.devices pk.1).map (fun d => d.deviceid)
    match mid? with
    | none => reattachKbdLoop false rest s
    | some mid =>
      let r := reattachKbdLoop false rest (runCmd (Cmd.reattach pk.2 mid) s)
      (Cmd.reattach pk.2 mid :: r.1, r.2)

/-- The mouse-reattachment loop (core.py lines 291-305), mirror image of
the keyboard loop with `VIRTUAL_CORE_POINTER` and the pointer lookup. -/
def reattachMouseLoop : Bool → List (String × Nat) → XState → List Cmd × XState
  | _, [], s => ([], s)
  | first, pm :: rest, s =>
    let mid? : Option Nat :=
      if first then some VIRTUAL_CORE_POINTER
      else (find_master_pointer_by_name s.devices pm.1).map (fun d => d.deviceid)
    match mid? with
    | none => reattachMouseLoop false rest s
    | some mid =>
      let r := reattachMouseLoop false rest (runCmd (Cmd.reattach pm.2 mid) s)
      (Cmd.reattach pm.2 mid :: r.1, r.2)

/-- `setup_players(dpy, player_names, player_keyboards, player_mice)`:
cleanup with `masters_to_keep = player_names[1:]`, then conditional
creation for the players after the first, then the two reattachment
loops. `player_keyboards`/`player_mice` are dicts iterated in insertion
order, embedded as association lists. An empty `player_mice` dict is
falsy in Python; passing `some []` makes the mouse loop a no-op, which
agrees. Returns the trace of issued `xinput` commands and the final
server state. -/
def setup_players (names : List String) (player_keyboards : List (String × Nat))
    (player_mice : Option (List (String × Nat))) (s : XState) : List Cmd × XState :=
  let r1 := cleanup_extra_masters (names.drop 1) s
  let r2 := createLoop (names.drop 1) r1.2
  let r3 := reattachKbdLoop true player_keyboards r2.2
  match player_mice with
  | none => (r1.1 ++ r2.1 ++ r3.1, r3.2)
  | some mice =>
    let r4 := reattachMouseLoop true mice r3.2
    (r1.1 ++ r2.1 ++ r3.1 ++ r4.1, r4.2)

/-! ## Event watcher (core.py lines 164-234) -/

/-- One event delivered by `dpy.next_event()`: its core `type`, the
XInput2 `evtype` when the event object carries one (`hasattr`), and the
raw payload bytes `event.data`. -/
structure XEvent where
  type : Nat
  evtype : Option Nat
  data : List Nat

/-- `struct.unpack('<HII', data[:10])`: little-endian uint16 device id,
uint32 timestamp, uint32 detail (keycode or button). -/
def unpackRaw (data : List Nat) : Nat × Nat × Nat :=
  (data.getD 0 0 + 256 * data.getD 1 0,
   data.getD 2 0 + 256 * data.getD 3 0 + 65536 * data.getD 4 0 +
     16777216 * data.getD 5 0,
   data.getD 6 0 + 256 * data.getD 7 0 + 65536 * data.getD 8 0 +
     16777216 * data.getD 9 0)

/-- `wait_for_enter_key` (core.py lines 164-198) over an explicit event
stream: skip anything that is not a generic `RawKeyPress`, skip raw
events from ids outside `slave_keyboard_ids`, return the source id on
keycode 36. Exhausting the stream models blocking forever (`none`); a
payload shorter than 10 bytes makes `struct.unpack` raise, so nothing is
returned either. -/
def wait_for_enter_key (slave_keyboard_ids : List Nat) : List XEvent → Option Nat
  | [] => none
  | e :: es =>
    if e.type == GenericEvent then
      match e.evtype with
      | some et =>
        if et == RawKeyPress then
          if e.data.length < 10 then none
          else if !slave_keyboard_ids.contains (unpackRaw e.data).1 then
            wait_for_enter_key slave_keyboard_ids es
          else if (unpackRaw e.data).2.2 == ENTER_KEYCODE then
            some (unpackRaw e.data).1
          else wait_for_enter_key slave_keyboard_ids es
        else wait_for_enter_key slave_keyboard_ids es
      | none => wait_for_enter_key slave_keyboard_ids es
    else wait_for_enter_key slave_keyboard_ids es

/-- `wait_for_mouse_click` (core.py lines 201-234): same skeleton for
`RawButtonPress`, accepting any button. -/
def wait_for_mouse_click (slave_pointer_ids : List Nat) : List XEvent → Option Nat
  | [] => none
  | e :: es =>
    if e.type == GenericEvent then
      match e.evtype with
      | some et =>
        if et == RawButtonPress then
          if e.data.length < 10 then none
          else if !slave_pointer_ids.contains (unpackRaw e.data).1 then
            wait_for_mouse_click slave_pointer_ids es
          else some (unpackRaw e.data).1
        else wait_for_mouse_click slave_pointer_ids es
      | none => wait_for_mouse_click slave_pointer_ids es
    else wait_for_mouse_click slave_pointer_ids es

/-! ## Detection/claim loop (cli.py lines 69-110, kodi_gui.py lines 113-167) -/

/-- The per-player claim loop shared by every front end: for each player
in turn, take the next detected device id from the watcher; an id already
in the assigned set is rejected and the same player re-prompted;
otherwise record the claim and move on. First argument is the stream of
ids the watcher hands back, in order; returns `none` when the stream runs
dry before every player has a device. The same loop runs for keyboards
and, when requested, for mice. -/
def detectLoop : List Nat → List String → List Nat → Option (List (String × Nat))
  | _, [], _ => some []
  | [], _ :: _, _ => none
  | d :: ds, pn :: ps, assigned =>
    if assigned.contains d then detectLoop ds (pn :: ps) assigned
    else (detectLoop ds ps (d :: assigned)).map (fun m => (pn, d) :: m)

/-! ## Fallible execution of the command trace (error policy) -/

/-- Execution of a command trace against an oracle telling which external
`xinput` invocations exit zero.  `subprocess.run(..., check=True)` raises
`CalledProcessError` on the first non-zero exit and no caller catches it,
so execution stops at the first failing command: the result is the list
of commands actually issued and the failing command, if any, surfaced
as-is. -/
def execTrace (ok : Cmd → Bool) : List Cmd → List Cmd × Option Cmd
  | [] => ([], none)
  | c :: cs =>
    if ok c then
      let r := execTrace ok cs
      (c :: r.1, r.2)
    else ([c], some c)

/-- `setup_players` as actually executed: every issued command must
succeed; the first failure aborts the session with that command's error. -/
def setup_players_exec (ok : Cmd → Bool) (names : List String)
    (player_keyboards : List (String × Nat))
    (player_mice : Option (List (String × Nat))) (s : XState) :
    List Cmd × Option Cmd :=
  execTrace ok (setup_players names player_keyboards player_mice s).1

/-! ## Command-line interface (main.py lines 597-632) -/

/-- The namespace produced by `parser.parse_args()` for the four declared
arguments. -/
structure Args where
  num_players : Option Int
  names : Option (List String)
  mice : Bool
  gui : Bool
deriving DecidableEq

/-- An argv token the parser treats as an optional argument (long-option
syntax). -/
def isOptTok (t : String) : Bool :=
  "--".data.isPrefixOf t.data

def digitsToNat (l : List Char) : Nat :=
  l.foldl (fun acc c => acc * 10 + (c.toNat - 48)) 0

/-- Python `int(s)` on a command-line token, modelled for an optional
sign followed by decimal digits. -/
def pyInt? (s : String) : Option Int :=
  match s.data with
  | [] => none
  | c :: rest =>
    if c == '-' then
      if !rest.isEmpty && rest.all Char.isDigit then
        some (-(Int.ofNat (digitsToNat rest))) else none
    else if c == '+' then
      if !rest.isEmpty && rest.all Char.isDigit then
        some (Int.ofNat (digitsToNat rest)) else none
    else
      if (c :: rest).all Char.isDigit then
        some (Int.ofNat (digitsToNat (c :: rest))) else none

/-- `argparse` over the four arguments declared in `main()`:
`num_players` (optional positional, `type=int`), `--names` (`nargs='*'`,
consuming the following non-option tokens), `--mice` and `--gui`
(`store_true`).  Any other option token — `--kodi` included — is an
unrecognized argument and a parser error (non-zero exit); so is a second
positional or an unparsable `num_players`.  The automatic `--help` and
option abbreviation are outside the model. -/
def parseTokens : Nat → List String → Args → Except String Args
  | _, [], a => Except.ok a
  | 0, _ :: _, a => Except.ok a
  | fuel + 1, t :: ts, a =>
    if t == "--mice" then parseTokens fuel ts { a with mice := true }
    else if t == "--gui" then parseTokens fuel ts { a with gui := true }
    else if t == "--names" then
      parseTokens fuel (ts.dropWhile (fun x => !isOptTok x))
        { a with names := some (ts.takeWhile (fun x => !isOptTok x)) }
    else if isOptTok t then Except.error ("unrecognized arguments: " ++ t)
    else
      match a.num_players with
      | some _ => Except.error ("unrecognized arguments: " ++ t)
      | none =>
        match pyInt? t with
        | some n => parseTokens fuel ts { a with num_players := some n }
        | none => Except.error ("argument num_players: invalid int value: " ++ t)

/-- Every parsing step consumes at least one token, so `argv.length` fuel
always reaches the end of the token list; the fuel only makes the
recursion structural. -/
def parse_args (argv : List String) : Except String Args :=
  parseTokens argv.length argv ⟨none, none, false, false⟩

/-- What `main()` (main.py lines 597-632) does with the parsed arguments
before any device work: GUI mode when `--gui` was given, otherwise CLI
mode requiring `num_players`, otherwise `parser.error` (non-zero exit). -/
inductive MainOutcome where
  | runGui
  | runCli (num_players : Int) (names : Option (List String)) (mice : Bool)
  | parserError (msg : String)
deriving DecidableEq

def mainEntry (argv : List String) : MainOutcome :=
  match parse_args argv with
  | Except.error m => MainOutcome.parserError m
  | Except.ok a =>
    if a.gui then MainOutcome.runGui
    else
      match a.num_players with
      | none => MainOutcome.parserError "num_players is required in CLI mode (or use --gui)"
      | some n => MainOutcome.runCli n a.names a.mice

/-! ## Predicates used in the specifications -/

/-- The device list contains a master keyboard for name stem `n`. -/
def kbdExists (devs : List Device) (n : String) : Prop :=
  ∃ d ∈ devs, d.use = MASTER_KEYBOARD ∧ d.name = n ++ " keyboard"

instance (devs : List Device) (n : String) : Decidable (kbdExists devs n) := by
  unfold kbdExists; infer_instance

/-- The device list contains a master keyboard for stem `n` carrying
device id `mid`. -/
def kbdExistsWithId (devs : List Device) (n : String) (mid : Nat) : Prop :=
  ∃ d ∈ devs, d.use = MASTER_KEYBOARD ∧ d.name = n ++ " keyboard" ∧ d.deviceid = mid

instance (devs : List Device) (n : String) (mid : Nat) :
    Decidable (kbdExistsWithId devs n mid) := by
  unfold kbdExistsWithId; infer_instance

/-- Every device of `devs` has an original in `devs₀` with the same id,
name and role (attachments may differ). -/
def shadows (devs devs₀ : List Device) : Prop :=
  ∀ d ∈ devs, ∃ d₀ ∈ devs₀,
    d.deviceid = d₀.deviceid ∧ d.name = d₀.name ∧ d.use = d₀.use

/-- Well-formedness the X server guarantees: device ids are pairwise
distinct and below the server's next fresh id. -/
def WF (s : XState) : Prop :=
  (s.devices.map (fun d => d.deviceid)).Nodup ∧
    ∀ d ∈ s.devices, d.deviceid < s.nextId

instance (s : XState) : Decidable (WF s) := by
  unfold WF; infer_instance

/-! ## Concrete instances used as witnesses -/

def demoVcp : Device := ⟨2, "Virtual core pointer", 1, 3⟩
def demoVck : Device := ⟨3, "Virtual core keyboard", 2, 2⟩
def demoKbd7 : Device := ⟨7, "USB Kbd A", 4, 3⟩
def demoKbd9 : Device := ⟨9, "USB Kbd B", 4, 3⟩
def demoXtest : Device := ⟨8, "Virtual core XTEST keyboard", 4, 3⟩
def demoState : XState := ⟨[demoVcp, demoVck, demoKbd7, demoKbd9], 10⟩

def demoAliceP : Device := ⟨10, "Alice pointer", 1, 11⟩
def demoAliceK : Device := ⟨11, "Alice keyboard", 2, 10⟩
def demoStaleState : XState :=
  ⟨[demoVcp, demoVck, demoKbd7, demoKbd9, demoAliceP, demoAliceK], 12⟩

/-- Oracle under which every `create-master` invocation exits non-zero. -/
def demoFailCreate : Cmd → Bool := fun c => !isCreateCmd c

def demoEnterEvent : XEvent := ⟨35, some 13, [5, 0, 0, 0, 0, 0, 36, 0, 0, 0]⟩
def demoClickEvent : XEvent := ⟨35, some 15, [6, 0, 0, 0, 0, 0, 1, 0, 0, 0]⟩

/-! # Theorems -/

/-! ## General helper lemmas -/

theorem data_append (a b : String) : (a ++ b).data = a.data ++ b.data := by
  cases a; cases b; rfl

theorem append_suffix_cancel {a b suf : String} (h : a ++ suf = b ++ suf) : a = b := by
  cases a with
  | mk la =>
    cases b with
    | mk lb =>
      have hd : la ++ suf.data = lb ++ suf.data := by
        have := congrArg String.data h
        simpa [data_append] using this
      exact congrArg String.mk (List.append_cancel_right hd)

theorem mem_of_contains {α : Type} [BEq α] [LawfulBEq α] {l : List α} {a : α}
    (h : l.contains a = true) : a ∈ l :=
  List.elem_iff.mp h

theorem contains_of_mem {α : Type} [BEq α] [LawfulBEq α] {l : List α} {a : α}
    (h : a ∈ l) : l.contains a = true :=
  List.elem_iff.mpr h

theorem not_mem_of_contains_ne {α : Type} [BEq α] [LawfulBEq α] {l : List α} {a : α}
    (h : ¬ l.contains a = true) : a ∉ l :=
  fun hm => h (contains_of_mem hm)

/-! ## Detection loop (C1) -/

theorem detectLoop_sound : ∀ (ds : List Nat) (ps : List String) (assigned : List Nat)
    (m : List (String × Nat)), detectLoop ds ps assigned = some m →
    (m.map Prod.snd).Nodup ∧ m.map Prod.fst = ps ∧
      ∀ x ∈ m.map Prod.snd, x ∉ assigned := by
  intro ds
  induction ds with
  | nil =>
    intro ps assigned m h
    cases ps with
    | nil =>
      simp only [detectLoop, Option.some.injEq] at h
      subst h; simp
    | cons p ps => simp [detectLoop] at h
  | cons d ds ih =>
    intro ps assigned m h
    cases ps with
    | nil =>
      simp only [detectLoop, Option.some.injEq] at h
      subst h; simp
    | cons pn ps =>
      rw [detectLoop] at h
      by_cases hc : (assigned.contains d) = true
      · rw [if_pos hc] at h
        exact ih _ _ _ h
      · rw [if_neg hc] at h
        rcases Option.map_eq_some'.mp h with ⟨m', hm', rfl⟩
        obtain ⟨h1, h2, h3⟩ := ih _ _ _ hm'
        refine ⟨?_, ?_, ?_⟩
        · refine List.nodup_cons.mpr ⟨?_, h1⟩
          intro hd
          exact (h3 d hd) (List.mem_cons_self d assigned)
        · simp [h2]
        · intro x hx
          simp only [List.map_cons, List.mem_cons] at hx
          rcases hx with rfl | hx
          · intro hmem
            exact hc (contains_of_mem hmem)
          · intro hmem
            exact (h3 x hx) (List.mem_cons_of_mem d hmem)

/-- C1: for every sequence of watcher-detected device ids during one
setup session, an id already in the assigned set is rejected and the
same player re-prompted, so when the claim loop completes, the final
player-to-device association (used identically for keyboards and mice)
pairs the players in order with pairwise-distinct device ids — the map
is injective. -/
theorem claim_C1_assignment_injective (ds : List Nat) (ps : List String)
    (m : List (String × Nat)) (h : detectLoop ds ps [] = some m) :
    (m.map Prod.snd).Nodup ∧ m.map Prod.fst = ps :=
  ⟨(detectLoop_sound ds ps [] m h).1, (detectLoop_sound ds ps [] m h).2.1⟩

theorem claim_C1_witness :
    detectLoop [5, 5, 7] ["P1", "P2"] [] = some [("P1", 5), ("P2", 7)] ∧
      (([("P1", 5), ("P2", 7)] : List (String × Nat)).map Prod.snd).Nodup ∧
      ([("P1", 5), ("P2", 7)] : List (String × Nat)).map Prod.fst = ["P1", "P2"] :=
  ⟨by decide, claim_C1_assignment_injective [5, 5, 7] ["P1", "P2"] _ (by decide)⟩

/-! ## Event watcher (C2) -/

theorem wait_for_enter_key_sound : ∀ (ids : List Nat) (evs : List XEvent) (d : Nat),
    wait_for_enter_key ids evs = some d →
    d ∈ ids ∧ ∃ e ∈ evs, e.type = GenericEvent ∧ e.evtype = some RawKeyPress ∧
      (unpackRaw e.data).1 = d ∧ (unpackRaw e.data).2.2 = ENTER_KEYCODE := by
  intro ids evs
  induction evs with
  | nil => intro d h; simp [wait_for_enter_key] at h
  | cons e es ih =>
    intro d h
    have step : (d ∈ ids ∧ ∃ e' ∈ es, e'.type = GenericEvent ∧
        e'.evtype = some RawKeyPress ∧ (unpackRaw e'.data).1 = d ∧
        (unpackRaw e'.data).2.2 = ENTER_KEYCODE) →
        d ∈ ids ∧ ∃ e' ∈ e :: es, e'.type = GenericEvent ∧
        e'.evtype = some RawKeyPress ∧ (unpackRaw e'.data).1 = d ∧
        (unpackRaw e'.data).2.2 = ENTER_KEYCODE := by
      rintro ⟨h1, e', hm, hp⟩
      exact ⟨h1, e', List.mem_cons_of_mem _ hm, hp⟩
    rw [wait_for_enter_key] at h
    by_cases h1 : (e.type == GenericEvent) = true
    · rw [if_pos h1] at h
      cases hty : e.evtype with
      | none => rw [hty] at h; dsimp only at h; exact step (ih d h)
      | some et =>
        rw [hty] at h
        dsimp only at h
        by_cases h2 : (et == RawKeyPress) = true
        · rw [if_pos h2] at h
          by_cases h3 : e.data.length < 10
          · rw [if_pos h3] at h; exact absurd h (by simp)
          · rw [if_neg h3] at h
            by_cases h4 : (!ids.contains (unpackRaw e.data).1) = true
            · rw [if_pos h4] at h; exact step (ih d h)
            · rw [if_neg h4] at h
              by_cases h5 : ((unpackRaw e.data).2.2 == ENTER_KEYCODE) = true
              · rw [if_pos h5] at h
                have hd : (unpackRaw e.data).1 = d := by
                  simpa using h
                refine ⟨?_, e, List.mem_cons_self e es, beq_iff_eq.mp h1, ?_, hd,
                  beq_iff_eq.mp h5⟩
                · rw [← hd]
                  exact mem_of_contains (by simpa using h4)
                · rw [hty, beq_iff_eq.mp h2]
              · rw [if_neg h5] at h; exact step (ih d h)
        · rw [if_neg h2] at h; exact step (ih d h)
    · rw [if_neg h1] at h; exact step (ih d h)

theorem wait_for_mouse_click_sound : ∀ (ids : List Nat) (evs : List XEvent) (d : Nat),
    wait_for_mouse_click ids evs = some d →
    d ∈ ids ∧ ∃ e ∈ evs, e.type = GenericEvent ∧ e.evtype = some RawButtonPress ∧
      (unpackRaw e.data).1 = d := by
  intro ids evs
  induction evs with
  | nil => intro d h; simp [wait_for_mouse_click] at h
  | cons e es ih =>
    intro d h
    have step : (d ∈ ids ∧ ∃ e' ∈ es, e'.type = GenericEvent ∧
        e'.evtype = some RawButtonPress ∧ (unpackRaw e'.data).1 = d) →
        d ∈ ids ∧ ∃ e' ∈ e :: es, e'.type = GenericEvent ∧
        e'.evtype = some RawButtonPress ∧ (unpackRaw e'.data).1 = d := by
      rintro ⟨h1, e', hm, hp⟩
      exact ⟨h1, e', List.mem_cons_of_mem _ hm, hp⟩
    rw [wait_for_mouse_click] at h
    by_cases h1 : (e.type == GenericEvent) = true
    · rw [if_pos h1] at h
      cases hty : e.evtype with
      | none => rw [hty] at h; dsimp only at h; exact step (ih d h)
      | some et =>
        rw [hty] at h
        dsimp only at h
        by_cases h2 : (et == RawButtonPress) = true
        · rw [if_pos h2] at h
          by_cases h3 : e.data.length < 10
          · rw [if_pos h3] at h; exact absurd h (by simp)
          · rw [if_neg h3] at h
            by_cases h4 : (!ids.contains (unpackRaw e.data).1) = true
            · rw [if_pos h4] at h; exact step (ih d h)
            · rw [if_neg h4] at h
              have hd : (unpackRaw e.data).1 = d := by simpa using h
              refine ⟨?_, e, List.mem_cons_self e es, beq_iff_eq.mp h1, ?_, hd⟩
              · rw [← hd]
                exact mem_of_contains (by simpa using h4)
              · rw [hty, beq_iff_eq.mp h2]
        · rw [if_neg h2] at h; exact step (ih d h)
    · rw [if_neg h1] at h; exact step (ih d h)

/-- C2: `wait_for_enter_key` returns a device id only when that id is in
the supplied slave-keyboard id set and the raw event's keycode equals the
single confirm keycode 36; `wait_for_mouse_click` returns an id only when
it is in the supplied slave-pointer id set, for any button; events whose
parsed source id lies outside the supplied set are skipped and never
returned. -/
theorem claim_C2_watcher_filter (ids : List Nat) (evs : List XEvent) (d : Nat) :
    (wait_for_enter_key ids evs = some d →
      d ∈ ids ∧ ∃ e ∈ evs, e.type = GenericEvent ∧ e.evtype = some RawKeyPress ∧
        (unpackRaw e.data).1 = d ∧ (unpackRaw e.data).2.2 = ENTER_KEYCODE) ∧
    (wait_for_mouse_click ids evs = some d →
      d ∈ ids ∧ ∃ e ∈ evs, e.type = GenericEvent ∧ e.evtype = some RawButtonPress ∧
        (unpackRaw e.data).1 = d) :=
  ⟨wait_for_enter_key_sound ids evs d, wait_for_mouse_click_sound ids evs d⟩

theorem claim_C2_witness :
    (5 ∈ [5, 6] ∧ ∃ e ∈ [demoEnterEvent], e.type = GenericEvent ∧
      e.evtype = some RawKeyPress ∧ (unpackRaw e.data).1 = 5 ∧
      (unpackRaw e.data).2.2 = ENTER_KEYCODE) ∧
    (6 ∈ [5, 6] ∧ ∃ e ∈ [demoClickEvent], e.type = GenericEvent ∧
      e.evtype = some RawButtonPress ∧ (unpackRaw e.data).1 = 6) :=
  ⟨(claim_C2_watcher_filter [5, 6] [demoEnterEvent] 5).1 (by decide),
   (claim_C2_watcher_filter [5, 6] [demoClickEvent] 6).2 (by decide)⟩

/-! ## XTEST filtering (C9) -/

/-- C9: the slave-keyboard and slave-pointer id sets used for detection
contain exactly the ids of slave devices of the matching role whose name
does not contain the synthetic-test marker `XTEST`. -/
theorem claim_C9_xtest_filter (devices : List Device) (i : Nat) :
    (i ∈ get_slave_keyboard_ids devices ↔
      ∃ d ∈ devices, d.deviceid = i ∧ d.use = SLAVE_KEYBOARD ∧
        pyContains d.name "XTEST" = false) ∧
    (i ∈ get_slave_pointer_ids devices ↔
      ∃ d ∈ devices, d.deviceid = i ∧ d.use = SLAVE_POINTER ∧
        pyContains d.name "XTEST" = false) := by
  constructor <;>
  · simp only [get_slave_keyboard_ids, get_slave_pointer_ids, get_slave_keyboards,
      get_slave_pointers, List.mem_map, List.mem_filter, Bool.not_eq_true',
      beq_iff_eq]
    constructor
    · rintro ⟨d, ⟨⟨hmem, huse⟩, hx⟩, rfl⟩
      exact ⟨d, hmem, rfl, huse, hx⟩
    · rintro ⟨d, hmem, rfl, huse, hx⟩
      exact ⟨d, ⟨⟨hmem, huse⟩, hx⟩, rfl⟩

theorem claim_C9_witness :
    7 ∈ get_slave_keyboard_ids [demoKbd7, demoXtest] ∧
    8 ∉ get_slave_keyboard_ids [demoKbd7, demoXtest] :=
  ⟨(claim_C9_xtest_filter [demoKbd7, demoXtest] 7).1.mpr ⟨demoKbd7, by decide⟩,
   fun h => by
    have hx := (claim_C9_xtest_filter [demoKbd7, demoXtest] 8).1.mp h
    revert hx
    decide⟩

/-! ## get_device_name_by_id totality (C10) -/

/-- C10: `get_device_name_by_id` is total: when some enumerated device
carries the requested id it returns that device's name, and otherwise it
returns the non-empty fallback string `Unknown (ID: <id>)` instead of
raising or returning an empty value. -/
theorem claim_C10_name_total (devices : List Device) (i : Nat) :
    ((∃ d ∈ devices, d.deviceid = i) →
      ∃ d ∈ devices, d.deviceid = i ∧ get_device_name_by_id devices i = d.name) ∧
    ((¬ ∃ d ∈ devices, d.deviceid = i) →
      get_device_name_by_id devices i = "Unknown (ID: " ++ toString i ++ ")" ∧
      get_device_name_by_id devices i ≠ "") := by
  constructor
  · intro hex
    cases hfind : devices.find? (fun d => d.deviceid == i) with
    | none =>
      exfalso
      rcases hex with ⟨d, hmem, hid⟩
      have := List.find?_eq_none.mp hfind d hmem
      simp [hid] at this
    | some d =>
      refine ⟨d, List.mem_of_find?_eq_some hfind, ?_, ?_⟩
      · have := List.find?_some hfind
        exact beq_iff_eq.mp this
      · unfold get_device_name_by_id
        rw [hfind]
  · intro hnex
    cases hfind : devices.find? (fun d => d.deviceid == i) with
    | none =>
      constructor
      · unfold get_device_name_by_id
        rw [hfind]
      · unfold get_device_name_by_id
        rw [hfind]
        intro hcontra
        have := congrArg String.data hcontra
        simp [data_append] at this
    | some d =>
      exfalso
      have hp := List.find?_some hfind
      exact hnex ⟨d, List.mem_of_find?_eq_some hfind, by simpa using hp⟩

theorem claim_C10_witness :
    (∃ d ∈ demoState.devices, d.deviceid = 7 ∧
      get_device_name_by_id demoState.devices 7 = d.name) ∧
    get_device_name_by_id demoState.devices 42 = "Unknown (ID: 42)" :=
  ⟨(claim_C10_name_total demoState.devices 7).1 ⟨demoKbd7, by decide, by decide⟩,
   ((claim_C10_name_total demoState.devices 42).2 (by decide)).1⟩

/-! ## Error policy (C7) -/

theorem execTrace_sound : ∀ (ok : Cmd → Bool) (cmds : List Cmd) (c : Cmd),
    (execTrace ok cmds).2 = some c →
    ok c = false ∧ ∃ pre suf, cmds = pre ++ c :: suf ∧ (∀ x ∈ pre, ok x = true) ∧
      (execTrace ok cmds).1 = pre ++ [c] := by
  intro ok cmds
  induction cmds with
  | nil => intro c h; simp [execTrace] at h
  | cons c0 cs ih =>
    intro c h
    rw [execTrace] at h
    by_cases h0 : ok c0 = true
    · rw [if_pos h0] at h
      simp only at h
      obtain ⟨hok, pre, suf, heq, hpre, hiss⟩ := ih c h
      refine ⟨hok, c0 :: pre, suf, by simp [heq], ?_, ?_⟩
      · intro x hx
        rcases List.mem_cons.mp hx with rfl | hx
        · exact h0
        · exact hpre x hx
      · rw [execTrace, if_pos h0]
        simp [hiss]
    · rw [if_neg h0] at h
      simp only [Option.some.injEq] at h
      subst h
      refine ⟨by simpa using h0, [], cs, rfl, by simp, ?_⟩
      rw [execTrace, if_neg h0]
      simp

/-- C7: a non-zero exit of any individual external create/reattach/remove
command is fatal to the session: the failing command is surfaced as-is,
every command issued before it succeeded, and no later command of the
planned `setup_players` sequence is issued (no retry, no partial-success
continuation). -/
theorem claim_C7_fail_fast (ok : Cmd → Bool) (names : List String)
    (player_keyboards : List (String × Nat))
    (player_mice : Option (List (String × Nat))) (s : XState) (c : Cmd)
    (h : (setup_players_exec ok names player_keyboards player_mice s).2 = some c) :
    ok c = false ∧ ∃ pre suf,
      (setup_players names player_keyboards player_mice s).1 = pre ++ c :: suf ∧
      (∀ x ∈ pre, ok x = true) ∧
      (setup_players_exec ok names player_keyboards player_mice s).1 = pre ++ [c] :=
  execTrace_sound ok (setup_players names player_keyboards player_mice s).1 c h

theorem claim_C7_witness :
    demoFailCreate (Cmd.createMaster "P2") = false ∧ ∃ pre suf,
      (setup_players ["P1", "P2"] [("P1", 7), ("P2", 9)] none demoState).1 =
        pre ++ Cmd.createMaster "P2" :: suf ∧
      (∀ x ∈ pre, demoFailCreate x = true) ∧
      (setup_players_exec demoFailCreate ["P1", "P2"] [("P1", 7), ("P2", 9)] none
        demoState).1 = pre ++ [Cmd.createMaster "P2"] :=
  claim_C7_fail_fast demoFailCreate ["P1", "P2"] [("P1", 7), ("P2", 9)] none demoState
    (Cmd.createMaster "P2") (by decide)

/-! ## Command-line interface (C8) -/

theorem claim_C8_counterexample :
    mainEntry ["--kodi"] = MainOutcome.parserError "unrecognized arguments: --kodi" := by
  decide

/-- C8 (amended): the command-line interface accepts
`<num_players> [--names ...] [--mice] [--gui]`; `--kodi` is not a
recognized argument and causes a standard parser error; `num_players`
may be omitted exactly when `--gui` is given, and omitting it without
`--gui` is a parser error (non-zero exit). -/
theorem claim_C8_cli_interface :
    (∀ argv a, parse_args argv = Except.ok a → a.gui = true →
      mainEntry argv = MainOutcome.runGui) ∧
    (∀ argv a, parse_args argv = Except.ok a → a.gui = false → a.num_players = none →
      mainEntry argv =
        MainOutcome.parserError "num_players is required in CLI mode (or use --gui)") ∧
    mainEntry ["3", "--names", "A", "B", "--mice"] =
      MainOutcome.runCli 3 (some ["A", "B"]) true ∧
    mainEntry ["--gui"] = MainOutcome.runGui ∧
    mainEntry [] =
      MainOutcome.parserError "num_players is required in CLI mode (or use --gui)" ∧
    mainEntry ["--kodi"] = MainOutcome.parserError "unrecognized arguments: --kodi" ∧
    mainEntry ["2", "--kodi"] = MainOutcome.parserError "unrecognized arguments: --kodi" := by
  refine ⟨?_, ?_, by decide, by decide, by decide, by decide, by decide⟩
  · intro argv a hp hg
    unfold mainEntry
    rw [hp]
    simp [hg]
  · intro argv a hp hg hn
    unfold mainEntry
    rw [hp]
    simp [hg, hn]

theorem claim_C8_witness :
    mainEntry ["--gui"] = MainOutcome.runGui ∧
    mainEntry ["--mice"] =
      MainOutcome.parserError "num_players is required in CLI mode (or use --gui)" :=
  ⟨claim_C8_cli_interface.1 ["--gui"] ⟨none, none, false, true⟩ rfl rfl,
   claim_C8_cli_interface.2.1 ["--mice"] ⟨none, none, true, false⟩ rfl rfl rfl⟩

/-! ## Lookup helpers for the assignment engine -/

theorem find_mk_sound {devs : List Device} {n : String} {d : Device}
    (h : find_master_keyboard_by_name devs n = some d) :
    d ∈ devs ∧ d.use = MASTER_KEYBOARD ∧ d.name = n ++ " keyboard" := by
  unfold find_master_keyboard_by_name get_master_keyboards at h
  have hmem := List.mem_of_find?_eq_some h
  have hp := List.find?_some h
  have hm := List.mem_filter.mp hmem
  exact ⟨hm.1, by simpa using hm.2, by simpa using hp⟩

theorem find_mk_isSome_iff {devs : List Device} {n : String} :
    (find_master_keyboard_by_name devs n).isSome = true ↔ kbdExists devs n := by
  unfold find_master_keyboard_by_name get_master_keyboards kbdExists
  rw [List.find?_isSome]
  constructor
  · rintro ⟨d, hd, hp⟩
    have hm := List.mem_filter.mp hd
    exact ⟨d, hm.1, by simpa using hm.2, by simpa using hp⟩
  · rintro ⟨d, hd, hu, hn⟩
    exact ⟨d, List.mem_filter.mpr ⟨hd, by simpa using hu⟩, by simpa using hn⟩

theorem get_extra_masters_mem {devs : List Device} {pr : Device × Device}
    (h : pr ∈ get_extra_masters devs) :
    pr.1 ∈ devs ∧ pr.1.use = MASTER_POINTER := by
  unfold get_extra_masters at h
  obtain ⟨p, hp, hmap⟩ := List.mem_filterMap.mp h
  have hpf := List.mem_filter.mp hp
  constructor
  · have : pr.1 = p := by
      by_cases he : pyEndsWith p.name " pointer" = true
      · rw [if_pos he] at hmap
        obtain ⟨k, _, hk⟩ := Option.map_eq_some'.mp hmap
        rw [← hk]
      · rw [if_neg he] at hmap
        exact absurd hmap (by simp)
    rw [this]
    exact hpf.1
  · have : pr.1 = p := by
      by_cases he : pyEndsWith p.name " pointer" = true
      · rw [if_pos he] at hmap
        obtain ⟨k, _, hk⟩ := Option.map_eq_some'.mp hmap
        rw [← hk]
      · rw [if_neg he] at hmap
        exact absurd hmap (by simp)
    rw [this]
    have := hpf.2
    simp only [Bool.and_eq_true, beq_iff_eq] at this
    exact this.1

/-! ## Properties of removeStep -/

theorem removeStep_some_sig {pid rp rk : Nat} {kbName : String} {kid? : Option Nat}
    {a b : Device} (h : removeStep pid rp rk kbName kid? a = some b) :
    b.deviceid = a.deviceid ∧ b.name = a.name ∧ b.use = a.use := by
  unfold removeStep at h
  split_ifs at h <;> simp only [Option.some.injEq] at h <;> subst h <;> exact ⟨rfl, rfl, rfl⟩

theorem removeStep_mk_kept {pid rp rk : Nat} {kbName : String} {kid? : Option Nat}
    {d : Device} (hu : d.use = MASTER_KEYBOARD) (hn : d.name ≠ kbName) :
    removeStep pid rp rk kbName kid? d = some d := by
  unfold removeStep
  rw [hu]
  simp [hn, MASTER_KEYBOARD, MASTER_POINTER, SLAVE_POINTER, SLAVE_KEYBOARD]

/-! ## Shape preservation under the state transitions -/

theorem exists_mem_applyReattach {P : Device → Prop}
    (hP : ∀ d m, P d → P { d with attachment := m }) (a b : Nat) (s : XState)
    (h : ∃ d ∈ s.devices, P d) :
    ∃ d ∈ (applyReattach a b s).devices, P d := by
  obtain ⟨d, hd, hPd⟩ := h
  refine ⟨_, List.mem_map_of_mem _ hd, ?_⟩
  dsimp only
  split
  · exact hP d b hPd
  · exact hPd

theorem exists_mem_applyCreateMaster {P : Device → Prop} (n : String) (s : XState)
    (h : ∃ d ∈ s.devices, P d) :
    ∃ d ∈ (applyCreateMaster n s).devices, P d := by
  obtain ⟨d, hd, hPd⟩ := h
  exact ⟨d, List.mem_append_left _ hd, hPd⟩

theorem exists_mem_reattachKbdLoop {P : Device → Prop}
    (hP : ∀ d m, P d → P { d with attachment := m }) :
    ∀ (l : List (String × Nat)) (first : Bool) (s : XState),
      (∃ d ∈ s.devices, P d) →
      ∃ d ∈ ((reattachKbdLoop first l s).2).devices, P d := by
  intro l
  induction l with
  | nil => intro first s h; simpa [reattachKbdLoop] using h
  | cons pk rest ih =>
    intro first s h
    rcases hmid : (if first then some VIRTUAL_CORE_KEYBOARD
        else (find_master_keyboard_by_name s.devices pk.1).map (fun d => d.deviceid)) with
      _ | mid
    · simp only [reattachKbdLoop, hmid]
      exact ih false s h
    · simp only [reattachKbdLoop, hmid]
      exact ih false _ (exists_mem_applyReattach hP _ _ _ h)

theorem exists_mem_reattachMouseLoop {P : Device → Prop}
    (hP : ∀ d m, P d → P { d with attachment := m }) :
    ∀ (l : List (String × Nat)) (first : Bool) (s : XState),
      (∃ d ∈ s.devices, P d) →
      ∃ d ∈ ((reattachMouseLoop first l s).2).devices, P d := by
  intro l
  induction l with
  | nil => intro first s h; simpa [reattachMouseLoop] using h
  | cons pm rest ih =>
    intro first s h
    rcases hmid : (if first then some VIRTUAL_CORE_POINTER
        else (find_master_pointer_by_name s.devices pm.1).map (fun d => d.deviceid)) with
      _ | mid
    · simp only [reattachMouseLoop, hmid]
      exact ih false s h
    · simp only [reattachMouseLoop, hmid]
      exact ih false _ (exists_mem_applyReattach hP _ _ _ h)

theorem exists_mem_createLoop {P : Device → Prop} :
    ∀ (ns : List String) (s : XState), (∃ d ∈ s.devices, P d) →
      ∃ d ∈ ((createLoop ns s).2).devices, P d := by
  intro ns
  induction ns with
  | nil => intro s h; simpa [createLoop] using h
  | cons n rest ih =>
    intro s h
    cases hf : find_master_keyboard_by_name s.devices n with
    | some m =>
      simp only [createLoop, hf]
      exact ih s h
    | none =>
      simp only [createLoop, hf]
      exact ih _ (exists_mem_applyCreateMaster n s h)

/-! ## The creation loop ensures and respects existing masters -/

theorem kbdExists_attachmentClosed (n : String) :
    ∀ (d : Device) (m : Nat), (d.use = MASTER_KEYBOARD ∧ d.name = n ++ " keyboard") →
      (({ d with attachment := m } : Device).use = MASTER_KEYBOARD ∧
        ({ d with attachment := m } : Device).name = n ++ " keyboard") :=
  fun _ _ h => h

theorem kbdExists_createLoop : ∀ (ns : List String) (s : XState) (n : String), n ∈ ns →
    kbdExists ((createLoop ns s).2).devices n := by
  intro ns
  induction ns with
  | nil => intro s n h; cases h
  | cons n0 rest ih =>
    intro s n hmem
    rcases List.mem_cons.mp hmem with rfl | hmem
    · cases hf : find_master_keyboard_by_name s.devices n with
      | some m =>
        simp only [createLoop, hf]
        have hex : kbdExists s.devices n := by
          obtain ⟨hd, hu, hn⟩ := find_mk_sound hf
          exact ⟨m, hd, hu, hn⟩
        exact exists_mem_createLoop rest s hex
      | none =>
        simp only [createLoop, hf]
        have hex : kbdExists (applyCreateMaster n s).devices n := by
          refine ⟨⟨s.nextId + 1, n ++ " keyboard", MASTER_KEYBOARD, s.nextId⟩, ?_, rfl, rfl⟩
          unfold applyCreateMaster
          simp
        exact exists_mem_createLoop rest _ hex
    · cases hf : find_master_keyboard_by_name s.devices n0 with
      | some m => simp only [createLoop, hf]; exact ih s n hmem
      | none => simp only [createLoop, hf]; exact ih _ n hmem

theorem createLoop_no_cmds : ∀ (ns : List String) (s : XState),
    (∀ n ∈ ns, kbdExists s.devices n) → (createLoop ns s).1 = [] := by
  intro ns
  induction ns with
  | nil => intro s _; simp [createLoop]
  | cons n0 rest ih =>
    intro s h
    have h0 : kbdExists s.devices n0 := h n0 (List.mem_cons_self _ _)
    have hsome := find_mk_isSome_iff.mpr h0
    cases hf : find_master_keyboard_by_name s.devices n0 with
    | none => rw [hf] at hsome; simp at hsome
    | some m =>
      simp only [createLoop, hf]
      exact ih s (fun n hn => h n (List.mem_cons_of_mem _ hn))

theorem createLoop_mem_create : ∀ (ns : List String) (s : XState) (n : String),
    Cmd.createMaster n ∈ (createLoop ns s).1 →
    n ∈ ns ∧ find_master_keyboard_by_name s.devices n = none := by
  intro ns
  induction ns with
  | nil => intro s n h; simp [createLoop] at h
  | cons n0 rest ih =>
    intro s n h
    cases hf : find_master_keyboard_by_name s.devices n0 with
    | some m =>
      rw [createLoop, hf] at h
      obtain ⟨h1, h2⟩ := ih s n h
      exact ⟨List.mem_cons_of_mem _ h1, h2⟩
    | none =>
      rw [createLoop, hf] at h
      rcases List.mem_cons.mp h with heq | h
      · have : n = n0 := by injection heq
        subst this
        exact ⟨List.mem_cons_self _ _, hf⟩
      · obtain ⟨h1, h2⟩ := ih _ n h
        refine ⟨List.mem_cons_of_mem _ h1, ?_⟩
        cases hq : find_master_keyboard_by_name s.devices n with
        | none => rfl
        | some d =>
          exfalso
          have hex : kbdExists s.devices n := by
            obtain ⟨hd, hu, hn⟩ := find_mk_sound hq
            exact ⟨d, hd, hu, hn⟩
          have hex2 : kbdExists (runCmd (Cmd.createMaster n0) s).devices n :=
            exists_mem_applyCreateMaster n0 s hex
          have := find_mk_isSome_iff.mpr hex2
          rw [h2] at this
          simp at this

/-! ## Shapes of the traces each phase produces -/

theorem cleanupLoop_shape : ∀ (snap : List (Device × Device)) (keep : List String)
    (s : XState), ∀ c ∈ (cleanupLoop keep snap s).1, isRemoveCmd c = true := by
  intro snap
  induction snap with
  | nil => intro keep s c hc; simp [cleanupLoop] at hc
  | cons pr rest ih =>
    intro keep s c hc
    by_cases hk : keep.contains (extractPfx pr.1.name) = true
    · rw [cleanupLoop, if_pos hk] at hc
      exact ih keep s c hc
    · rw [cleanupLoop, if_neg hk] at hc
      rcases List.mem_cons.mp hc with rfl | hc
      · rfl
      · exact ih keep _ c hc

theorem createLoop_shape : ∀ (ns : List String) (s : XState),
    ∀ c ∈ (createLoop ns s).1, isCreateCmd c = true := by
  intro ns
  induction ns with
  | nil => intro s c hc; simp [createLoop] at hc
  | cons n rest ih =>
    intro s c hc
    cases hf : find_master_keyboard_by_name s.devices n with
    | some m =>
      rw [createLoop, hf] at hc
      exact ih s c hc
    | none =>
      rw [createLoop, hf] at hc
      rcases List.mem_cons.mp hc with rfl | hc
      · rfl
      · exact ih _ c hc

theorem reattachKbdLoop_shape : ∀ (l : List (String × Nat)) (first : Bool) (s : XState),
    ∀ c ∈ (reattachKbdLoop first l s).1, isReattachCmd c = true := by
  intro l
  induction l with
  | nil => intro first s c hc; simp [reattachKbdLoop] at hc
  | cons pk rest ih =>
    intro first s c hc
    rcases hmid : (if first then some VIRTUAL_CORE_KEYBOARD
        else (find_master_keyboard_by_name s.devices pk.1).map (fun d => d.deviceid)) with
      _ | mid
    · rw [reattachKbdLoop] at hc
      rw [hmid] at hc
      exact ih false s c hc
    · rw [reattachKbdLoop] at hc
      rw [hmid] at hc
      rcases List.mem_cons.mp hc with rfl | hc
      · rfl
      · exact ih false _ c hc

theorem reattachMouseLoop_shape : ∀ (l : List (String × Nat)) (first : Bool) (s : XState),
    ∀ c ∈ (reattachMouseLoop first l s).1, isReattachCmd c = true := by
  intro l
  induction l with
  | nil => intro first s c hc; simp [reattachMouseLoop] at hc
  | cons pm rest ih =>
    intro first s c hc
    rcases hmid : (if first then some VIRTUAL_CORE_POINTER
        else (find_master_pointer_by_name s.devices pm.1).map (fun d => d.deviceid)) with
      _ | mid
    · rw [reattachMouseLoop] at hc
      rw [hmid] at hc
      exact ih false s c hc
    · rw [reattachMouseLoop] at hc
      rw [hmid] at hc
      rcases List.mem_cons.mp hc with rfl | hc
      · rfl
      · exact ih false _ c hc

/-! ## The cleanup trace, characterized -/

theorem cleanupLoop_trace : ∀ (snap : List (Device × Device)) (keep : List String)
    (s : XState) (pid a b : Nat),
    Cmd.removeMaster pid a b ∈ (cleanupLoop keep snap s).1 ↔
      a = VIRTUAL_CORE_POINTER ∧ b = VIRTUAL_CORE_KEYBOARD ∧
      ∃ pr ∈ snap, pr.1.deviceid = pid ∧ extractPfx pr.1.name ∉ keep := by
  intro snap
  induction snap with
  | nil =>
    intro keep s pid a b
    simp [cleanupLoop]
  | cons pr rest ih =>
    intro keep s pid a b
    by_cases hk : keep.contains (extractPfx pr.1.name) = true
    · rw [cleanupLoop, if_pos hk, ih]
      constructor
      · rintro ⟨ha, hb, q, hq, h1, h2⟩
        exact ⟨ha, hb, q, List.mem_cons_of_mem _ hq, h1, h2⟩
      · rintro ⟨ha, hb, q, hq, h1, h2⟩
        rcases List.mem_cons.mp hq with rfl | hq
        · exact absurd (mem_of_contains hk) h2
        · exact ⟨ha, hb, q, hq, h1, h2⟩
    · rw [cleanupLoop, if_neg hk]
      constructor
      · intro hc
        rcases List.mem_cons.mp hc with heq | hc
        · injection heq with e1 e2 e3
          exact ⟨e2, e3, pr, List.mem_cons_self _ _, e1.symm, not_mem_of_contains_ne hk⟩
        · obtain ⟨ha, hb, q, hq, h1, h2⟩ := (ih keep _ pid a b).mp hc
          exact ⟨ha, hb, q, List.mem_cons_of_mem _ hq, h1, h2⟩
      · rintro ⟨ha, hb, q, hq, h1, h2⟩
        subst ha; subst hb
        rcases List.mem_cons.mp hq with rfl | hq
        · rw [← h1]
          exact List.mem_cons_self _ _
        · exact List.mem_cons_of_mem _
            ((ih keep _ pid _ _).mpr ⟨rfl, rfl, q, hq, h1, h2⟩)

/-! ## Shadow relation: removals and reattachments never invent devices -/

theorem shadows_refl (l : List Device) : shadows l l :=
  fun d hd => ⟨d, hd, rfl, rfl, rfl⟩

theorem shadows_trans {l₁ l₂ l₃ : List Device} (h12 : shadows l₁ l₂)
    (h23 : shadows l₂ l₃) : shadows l₁ l₃ := by
  intro d hd
  obtain ⟨d2, hd2, e1, e2, e3⟩ := h12 d hd
  obtain ⟨d3, hd3, f1, f2, f3⟩ := h23 d2 hd2
  exact ⟨d3, hd3, e1.trans f1, e2.trans f2, e3.trans f3⟩

theorem shadows_applyRemoveMaster (pid rp rk : Nat) (s : XState) :
    shadows (applyRemoveMaster pid rp rk s).devices s.devices := by
  unfold applyRemoveMaster
  cases hq : s.devices.find? (fun d => d.use == MASTER_POINTER && d.deviceid == pid) with
  | none => exact shadows_refl _
  | some p =>
    intro d hd
    obtain ⟨a, ha, hfa⟩ := List.mem_filterMap.mp hd
    obtain ⟨e1, e2, e3⟩ := removeStep_some_sig hfa
    exact ⟨a, ha, e1, e2, e3⟩

theorem nodup_ids_inj {l : List Device} (h : (l.map (fun d => d.deviceid)).Nodup)
    {a b : Device} (ha : a ∈ l) (hb : b ∈ l) (hid : a.deviceid = b.deviceid) : a = b :=
  List.inj_on_of_nodup_map h ha hb hid

/-- Removing a master pair whose stem is outside `keep` cannot delete the
master keyboard of a stem inside `keep`. -/
theorem kbdExists_applyRemove_kept {keep : List String} {n : String} (hn : n ∈ keep)
    {s : XState} {base : List Device}
    (hnod : (base.map (fun d => d.deviceid)).Nodup)
    (hsh : shadows s.devices base) {p : Device} (hp : p ∈ base)
    (_hpu : p.use = MASTER_POINTER) (hkeep : extractPfx p.name ∉ keep)
    (rp rk : Nat) (hex : kbdExists s.devices n) :
    kbdExists (applyRemoveMaster p.deviceid rp rk s).devices n := by
  unfold applyRemoveMaster
  cases hq : s.devices.find?
      (fun d => d.use == MASTER_POINTER && d.deviceid == p.deviceid) with
  | none => exact hex
  | some q =>
    have hqmem := List.mem_of_find?_eq_some hq
    have hqp := List.find?_some hq
    simp only [Bool.and_eq_true, beq_iff_eq] at hqp
    obtain ⟨q0, hq0, e1, e2, e3⟩ := hsh q hqmem
    have hq0p : q0 = p := nodup_ids_inj hnod hq0 hp (by rw [← e1, hqp.2])
    have hqname : q.name = p.name := by rw [e2, hq0p]
    obtain ⟨d, hd, hu, hnm⟩ := hex
    refine ⟨d, ?_, hu, hnm⟩
    apply List.mem_filterMap.mpr
    refine ⟨d, hd, removeStep_mk_kept hu ?_⟩
    rw [hnm, hqname]
    intro hcontra
    exact hkeep (by rw [append_suffix_cancel hcontra] at hn; exact hn)

theorem cleanupLoop_preserves_kept :
    ∀ (snap : List (Device × Device)) (keep : List String) (s : XState)
      (base : List Device) (n : String),
    n ∈ keep → (base.map (fun d => d.deviceid)).Nodup → shadows s.devices base →
    (∀ pr ∈ snap, pr.1 ∈ base ∧ pr.1.use = MASTER_POINTER) →
    kbdExists s.devices n →
    kbdExists ((cleanupLoop keep snap s).2).devices n := by
  intro snap
  induction snap with
  | nil => intro keep s base n _ _ _ _ hex; simpa [cleanupLoop] using hex
  | cons pr rest ih =>
    intro keep s base n hn hnod hsh hsnap hex
    by_cases hk : keep.contains (extractPfx pr.1.name) = true
    · rw [cleanupLoop, if_pos hk]
      exact ih keep s base n hn hnod hsh
        (fun q hq => hsnap q (List.mem_cons_of_mem _ hq)) hex
    · rw [cleanupLoop, if_neg hk]
      have hpr := hsnap pr (List.mem_cons_self _ _)
      have hex2 : kbdExists (runCmd (Cmd.removeMaster pr.1.deviceid
          VIRTUAL_CORE_POINTER VIRTUAL_CORE_KEYBOARD) s).devices n :=
        kbdExists_applyRemove_kept hn hnod hsh hpr.1 hpr.2
          (not_mem_of_contains_ne hk) _ _ hex
      have hsh2 : shadows (runCmd (Cmd.removeMaster pr.1.deviceid
          VIRTUAL_CORE_POINTER VIRTUAL_CORE_KEYBOARD) s).devices base :=
        shadows_trans (shadows_applyRemoveMaster _ _ _ s) hsh
      exact ih keep _ base n hn hnod hsh2
        (fun q hq => hsnap q (List.mem_cons_of_mem _ hq)) hex2

/-! ## Well-formedness is preserved by every transition -/

theorem filterMap_ids_sublist (pid rp rk : Nat) (kbName : String) (kid? : Option Nat) :
    ∀ l : List Device,
      List.Sublist ((l.filterMap (removeStep pid rp rk kbName kid?)).map
        (fun d => d.deviceid)) (l.map (fun d => d.deviceid)) := by
  intro l
  induction l with
  | nil => simp
  | cons a l ih =>
    rw [List.filterMap_cons]
    cases hfa : removeStep pid rp rk kbName kid? a with
    | none =>
      exact (List.map_cons (fun d => d.deviceid) a l) ▸ ih.cons _
    | some b =>
      rw [List.map_cons, List.map_cons, (removeStep_some_sig hfa).1]
      exact ih.cons₂ _

theorem WF_applyCreateMaster (n : String) (s : XState) (h : WF s) :
    WF (applyCreateMaster n s) := by
  obtain ⟨h1, h2⟩ := h
  constructor
  · show ((s.devices ++ _).map (fun d => d.deviceid)).Nodup
    rw [List.map_append]
    refine List.Nodup.append h1 (by simp) ?_
    intro a ha hb
    obtain ⟨d, hd, rfl⟩ := List.mem_map.mp ha
    have hlt := h2 d hd
    simp only [List.map_cons, List.map_nil, List.mem_cons, List.mem_singleton] at hb
    rcases hb with hb | hb | hb
    · omega
    · omega
    · simp at hb
  · intro d hd
    rcases List.mem_append.mp hd with hd | hd
    · have := h2 d hd
      show d.deviceid < s.nextId + 2
      omega
    · simp only [List.mem_cons, List.mem_singleton] at hd
      rcases hd with rfl | rfl | h
      · show s.nextId < s.nextId + 2; omega
      · show s.nextId + 1 < s.nextId + 2; omega
      · cases h

theorem map_devid_applyReattach (a b : Nat) (s : XState) :
    ((applyReattach a b s).devices).map (fun d => d.deviceid) =
      s.devices.map (fun d => d.deviceid) := by
  unfold applyReattach
  dsimp only
  rw [List.map_map]
  apply List.map_congr_left
  intro d _
  dsimp only [Function.comp]
  split <;> rfl

theorem WF_applyReattach (a b : Nat) (s : XState) (h : WF s) :
    WF (applyReattach a b s) := by
  obtain ⟨h1, h2⟩ := h
  constructor
  · rw [map_devid_applyReattach]
    exact h1
  · intro d hd
    obtain ⟨d0, hd0, rfl⟩ := List.mem_map.mp hd
    have hlt := h2 d0 hd0
    show (if d0.deviceid == a && (d0.use == SLAVE_POINTER || d0.use == SLAVE_KEYBOARD)
        then { d0 with attachment := b } else d0).deviceid < s.nextId
    split <;> exact hlt

theorem WF_applyRemoveMaster (pid rp rk : Nat) (s : XState) (h : WF s) :
    WF (applyRemoveMaster pid rp rk s) := by
  obtain ⟨h1, h2⟩ := h
  unfold applyRemoveMaster
  cases hq : s.devices.find? (fun d => d.use == MASTER_POINTER && d.deviceid == pid) with
  | none => exact ⟨h1, h2⟩
  | some p =>
    constructor
    · exact (filterMap_ids_sublist _ _ _ _ _ _).nodup h1
    · intro d hd
      obtain ⟨a, ha, hfa⟩ := List.mem_filterMap.mp hd
      have := h2 a ha
      rw [(removeStep_some_sig hfa).1]
      exact this

theorem WF_runCmd (c : Cmd) (s : XState) (h : WF s) : WF (runCmd c s) := by
  cases c with
  | createMaster n => exact WF_applyCreateMaster n s h
  | reattach a b => exact WF_applyReattach a b s h
  | removeMaster pid rp rk => exact WF_applyRemoveMaster pid rp rk s h

theorem WF_cleanupLoop : ∀ (snap : List (Device × Device)) (keep : List String)
    (s : XState), WF s → WF ((cleanupLoop keep snap s).2) := by
  intro snap
  induction snap with
  | nil => intro keep s h; simpa [cleanupLoop] using h
  | cons pr rest ih =>
    intro keep s h
    by_cases hk : keep.contains (extractPfx pr.1.name) = true
    · rw [cleanupLoop, if_pos hk]; exact ih keep s h
    · rw [cleanupLoop, if_neg hk]; exact ih keep _ (WF_runCmd _ s h)

theorem WF_createLoop : ∀ (ns : List String) (s : XState),
    WF s → WF ((createLoop ns s).2) := by
  intro ns
  induction ns with
  | nil => intro s h; simpa [createLoop] using h
  | cons n rest ih =>
    intro s h
    cases hf : find_master_keyboard_by_name s.devices n with
    | some m => rw [createLoop, hf]; exact ih s h
    | none => rw [createLoop, hf]; exact ih _ (WF_runCmd _ s h)

theorem WF_reattachKbdLoop : ∀ (l : List (String × Nat)) (first : Bool) (s : XState),
    WF s → WF ((reattachKbdLoop first l s).2) := by
  intro l
  induction l with
  | nil => intro first s h; simpa [reattachKbdLoop] using h
  | cons pk rest ih =>
    intro first s h
    rcases hmid : (if first then some VIRTUAL_CORE_KEYBOARD
        else (find_master_keyboard_by_name s.devices pk.1).map (fun d => d.deviceid)) with
      _ | mid
    · rw [reattachKbdLoop]; rw [hmid]; exact ih false s h
    · rw [reattachKbdLoop]; rw [hmid]; exact ih false _ (WF_runCmd _ s h)

theorem WF_reattachMouseLoop : ∀ (l : List (String × Nat)) (first : Bool) (s : XState),
    WF s → WF ((reattachMouseLoop first l s).2) := by
  intro l
  induction l with
  | nil => intro first s h; simpa [reattachMouseLoop] using h
  | cons pm rest ih =>
    intro first s h
    rcases hmid : (if first then some VIRTUAL_CORE_POINTER
        else (find_master_pointer_by_name s.devices pm.1).map (fun d => d.deviceid)) with
      _ | mid
    · rw [reattachMouseLoop]; rw [hmid]; exact ih false s h
    · rw [reattachMouseLoop]; rw [hmid]; exact ih false _ (WF_runCmd _ s h)

theorem WF_setup_players (names : List String) (kbd : List (String × Nat))
    (mice : Option (List (String × Nat))) (s : XState) (h : WF s) :
    WF ((setup_players names kbd mice s).2) := by
  unfold setup_players cleanup_extra_masters
  cases mice with
  | none =>
    exact WF_reattachKbdLoop _ _ _ (WF_createLoop _ _ (WF_cleanupLoop _ _ _ h))
  | some m =>
    exact WF_reattachMouseLoop _ _ _
      (WF_reattachKbdLoop _ _ _ (WF_createLoop _ _ (WF_cleanupLoop _ _ _ h)))

/-! ## Convenience wrappers for kbdExists preservation -/

theorem kbdExists_reattachKbdLoop {n : String} (l : List (String × Nat)) (first : Bool)
    (s : XState) (h : kbdExists s.devices n) :
    kbdExists ((reattachKbdLoop first l s).2).devices n :=
  exists_mem_reattachKbdLoop (fun _ _ hp => hp) l first s h

theorem kbdExists_reattachMouseLoop {n : String} (l : List (String × Nat)) (first : Bool)
    (s : XState) (h : kbdExists s.devices n) :
    kbdExists ((reattachMouseLoop first l s).2).devices n :=
  exists_mem_reattachMouseLoop (fun _ _ hp => hp) l first s h

theorem kbdExistsWithId_reattachKbdLoop {n : String} {mid : Nat}
    (l : List (String × Nat)) (first : Bool) (s : XState)
    (h : kbdExistsWithId s.devices n mid) :
    kbdExistsWithId ((reattachKbdLoop first l s).2).devices n mid :=
  exists_mem_reattachKbdLoop (fun _ _ hp => hp) l first s h

theorem kbdExistsWithId_reattachMouseLoop {n : String} {mid : Nat}
    (l : List (String × Nat)) (first : Bool) (s : XState)
    (h : kbdExistsWithId s.devices n mid) :
    kbdExistsWithId ((reattachMouseLoop first l s).2).devices n mid :=
  exists_mem_reattachMouseLoop (fun _ _ hp => hp) l first s h

/-! ## The reattachment loop: first claim and later claims -/

theorem reattachKbdLoop_first (pk : String × Nat) (rest : List (String × Nat))
    (s : XState) :
    reattachKbdLoop true (pk :: rest) s =
      (Cmd.reattach pk.2 VIRTUAL_CORE_KEYBOARD ::
        (reattachKbdLoop false rest
          (runCmd (Cmd.reattach pk.2 VIRTUAL_CORE_KEYBOARD) s)).1,
       (reattachKbdLoop false rest
          (runCmd (Cmd.reattach pk.2 VIRTUAL_CORE_KEYBOARD) s)).2) := rfl

theorem reattachKbdLoop_later : ∀ (l : List (String × Nat)) (s : XState) (p : String)
    (k : Nat), (p, k) ∈ l → kbdExists s.devices p →
    ∃ mid, Cmd.reattach k mid ∈ (reattachKbdLoop false l s).1 ∧
      kbdExistsWithId ((reattachKbdLoop false l s).2).devices p mid := by
  intro l
  induction l with
  | nil => intro s p k h _; cases h
  | cons pk rest ih =>
    intro s p k hmem hex
    rcases List.mem_cons.mp hmem with heq | hmem
    · subst heq
      have hsome := find_mk_isSome_iff.mpr hex
      cases hf : find_master_keyboard_by_name s.devices p with
      | none => rw [hf] at hsome; simp at hsome
      | some m =>
        have hmid : (if false then some VIRTUAL_CORE_KEYBOARD
            else (find_master_keyboard_by_name s.devices (p, k).1).map
              (fun d => d.deviceid)) = some m.deviceid := by
          simp [hf]
        refine ⟨m.deviceid, ?_, ?_⟩
        · rw [reattachKbdLoop]
          rw [hmid]
          exact List.mem_cons_self _ _
        · rw [reattachKbdLoop]
          rw [hmid]
          obtain ⟨hm, hu, hn⟩ := find_mk_sound hf
          have hex0 : kbdExistsWithId s.devices p m.deviceid := ⟨m, hm, hu, hn, rfl⟩
          have hex1 : kbdExistsWithId
              (runCmd (Cmd.reattach (p, k).2 m.deviceid) s).devices p m.deviceid :=
            exists_mem_applyReattach (fun _ _ hp => hp) _ _ _ hex0
          exact kbdExistsWithId_reattachKbdLoop rest false _ hex1
    · rcases hmid : (if false then some VIRTUAL_CORE_KEYBOARD
          else (find_master_keyboard_by_name s.devices pk.1).map
            (fun d => d.deviceid)) with _ | mid
      · rw [reattachKbdLoop]
        rw [hmid]
        exact ih s p k hmem hex
      · rw [reattachKbdLoop]
        rw [hmid]
        have hex1 : kbdExists (runCmd (Cmd.reattach pk.2 mid) s).devices p :=
          exists_mem_applyReattach (fun _ _ hp => hp) _ _ _ hex
        obtain ⟨mid2, h1, h2⟩ := ih _ p k hmem hex1
        exact ⟨mid2, List.mem_cons_of_mem _ h1, h2⟩

/-! ## setup_players: trace decomposition and final states -/

theorem setup_players_split (names : List String) (kbd : List (String × Nat))
    (mice : Option (List (String × Nat))) (s : XState) :
    ∃ ts, (setup_players names kbd mice s).1 =
      (cleanup_extra_masters (names.drop 1) s).1 ++
      (createLoop (names.drop 1) (cleanup_extra_masters (names.drop 1) s).2).1 ++
      ((reattachKbdLoop true kbd (createLoop (names.drop 1)
        (cleanup_extra_masters (names.drop 1) s).2).2).1 ++ ts) ∧
      ∀ c ∈ ts, isReattachCmd c = true := by
  cases mice with
  | none =>
    refine ⟨[], ?_, by simp⟩
    simp [setup_players, List.append_assoc]
  | some m =>
    refine ⟨(reattachMouseLoop true m (reattachKbdLoop true kbd (createLoop (names.drop 1)
      (cleanup_extra_masters (names.drop 1) s).2).2).2).1, ?_,
      reattachMouseLoop_shape _ _ _⟩
    simp [setup_players, List.append_assoc]

theorem setup_players_state_none (names : List String) (kbd : List (String × Nat))
    (s : XState) :
    (setup_players names kbd none s).2 =
      (reattachKbdLoop true kbd (createLoop (names.drop 1)
        (cleanup_extra_masters (names.drop 1) s).2).2).2 := rfl

theorem setup_players_state_some (names : List String) (kbd : List (String × Nat))
    (m : List (String × Nat)) (s : XState) :
    (setup_players names kbd (some m) s).2 =
      (reattachMouseLoop true m (reattachKbdLoop true kbd (createLoop (names.drop 1)
        (cleanup_extra_masters (names.drop 1) s).2).2).2).2 := rfl

theorem kbdExists_setup_players (names : List String) (kbd : List (String × Nat))
    (mice : Option (List (String × Nat))) (s : XState) :
    ∀ n ∈ names.drop 1, kbdExists ((setup_players names kbd mice s).2).devices n := by
  intro n hn
  have h2 : kbdExists ((createLoop (names.drop 1)
      (cleanup_extra_masters (names.drop 1) s).2).2).devices n :=
    kbdExists_createLoop _ _ n hn
  cases mice with
  | none =>
    rw [setup_players_state_none]
    exact kbdExists_reattachKbdLoop _ _ _ h2
  | some m =>
    rw [setup_players_state_some]
    exact kbdExists_reattachMouseLoop _ _ _ (kbdExists_reattachKbdLoop _ _ _ h2)

/-! ## Orphan routing of remove-master (C6 state-level part) -/

theorem applyRemoveMaster_orphans (s : XState) (pid retP retK : Nat) (q : Device)
    (hq : s.devices.find? (fun d => d.use == MASTER_POINTER && d.deviceid == pid) =
      some q) :
    (∀ d ∈ s.devices, d.use = SLAVE_POINTER → d.attachment = pid →
      { d with attachment := retP } ∈ (applyRemoveMaster pid retP retK s).devices) ∧
    (∀ d ∈ s.devices, ∀ kb, s.devices.find? (fun d => d.use == MASTER_KEYBOARD &&
        d.name == extractPfx q.name ++ " keyboard") = some kb →
      d.use = SLAVE_KEYBOARD → d.attachment = kb.deviceid →
      { d with attachment := retK } ∈ (applyRemoveMaster pid retP retK s).devices) := by
  constructor
  · intro d hd hu ha
    unfold applyRemoveMaster
    simp only [hq]
    apply List.mem_filterMap.mpr
    refine ⟨d, hd, ?_⟩
    unfold removeStep
    rw [hu, ha]
    simp [SLAVE_POINTER, MASTER_POINTER, MASTER_KEYBOARD, SLAVE_KEYBOARD]
  · intro d hd kb hkb hu ha
    unfold applyRemoveMaster
    simp only [hq]
    apply List.mem_filterMap.mpr
    refine ⟨d, hd, ?_⟩
    unfold removeStep
    rw [hu, ha, hkb]
    simp [SLAVE_POINTER, MASTER_POINTER, MASTER_KEYBOARD, SLAVE_KEYBOARD]

/-! ## Claims C3-C6 -/

theorem claim_C3_counterexample :
    "Alice" ∈ ["Alice", "Bob"] ∧
    Cmd.removeMaster 10 VIRTUAL_CORE_POINTER VIRTUAL_CORE_KEYBOARD ∈
      (setup_players ["Alice", "Bob"] [("Alice", 7), ("Bob", 9)] none
        demoStaleState).1 := by
  constructor
  · decide
  · decide

/-- C3 (amended): the cleanup step of `setup_players` removes exactly
those previously created (non-Virtual-core) master pairs whose name stem
is not among the players after the first (`masters_to_keep =
player_names[1:]`); in particular a stale pair named after the *first*
player is removed, not kept. -/
theorem claim_C3_cleanup_exact (names : List String) (kbd : List (String × Nat))
    (mice : Option (List (String × Nat))) (s : XState) (pid a b : Nat) :
    Cmd.removeMaster pid a b ∈ (setup_players names kbd mice s).1 ↔
      a = VIRTUAL_CORE_POINTER ∧ b = VIRTUAL_CORE_KEYBOARD ∧
      ∃ pr ∈ get_extra_masters s.devices, pr.1.deviceid = pid ∧
        extractPfx pr.1.name ∉ names.drop 1 := by
  obtain ⟨ts, htr, hts⟩ := setup_players_split names kbd mice s
  rw [htr]
  constructor
  · intro hc
    rcases List.mem_append.mp hc with hc | hc
    · rcases List.mem_append.mp hc with hc | hc
      · exact (cleanupLoop_trace _ _ _ _ _ _).mp hc
      · have := createLoop_shape _ _ _ hc
        simp [isCreateCmd] at this
    · rcases List.mem_append.mp hc with hc | hc
      · have := reattachKbdLoop_shape _ _ _ _ hc
        simp [isReattachCmd] at this
      · have := hts _ hc
        simp [isReattachCmd] at this
  · intro hr
    exact List.mem_append.mpr (Or.inl (List.mem_append.mpr
      (Or.inl ((cleanupLoop_trace _ _ _ _ _ _).mpr hr))))

theorem claim_C3_witness :
    Cmd.removeMaster 10 VIRTUAL_CORE_POINTER VIRTUAL_CORE_KEYBOARD ∈
      (setup_players ["Alice", "Bob"] [("Alice", 7), ("Bob", 9)] none
        demoStaleState).1 :=
  (claim_C3_cleanup_exact ["Alice", "Bob"] [("Alice", 7), ("Bob", 9)] none
      demoStaleState 10 VIRTUAL_CORE_POINTER VIRTUAL_CORE_KEYBOARD).mpr
    ⟨rfl, rfl, (demoAliceP, demoAliceK), by decide, by decide, by decide⟩

/-- C4: in `setup_players` the cleanup of unneeded masters runs strictly
before any master creation (the trace is removals, then creations, then
reattachments); a master pair is created for a name only if no master
keyboard `<name> keyboard` existed after cleanup; and on a well-formed
server state running `setup_players` twice with the same arguments issues
no create command in the second run. -/
theorem claim_C4_order_idempotent (names : List String) (kbd : List (String × Nat))
    (mice : Option (List (String × Nat))) (s : XState) (hwf : WF s) :
    (∃ rs cs ts, (setup_players names kbd mice s).1 = rs ++ cs ++ ts ∧
      (∀ c ∈ rs, isRemoveCmd c = true) ∧ (∀ c ∈ cs, isCreateCmd c = true) ∧
      (∀ c ∈ ts, isReattachCmd c = true)) ∧
    (∀ n, Cmd.createMaster n ∈ (setup_players names kbd mice s).1 →
      find_master_keyboard_by_name
        ((cleanup_extra_masters (names.drop 1) s).2).devices n = none) ∧
    (∀ n, Cmd.createMaster n ∉
      (setup_players names kbd mice (setup_players names kbd mice s).2).1) := by
  obtain ⟨ts, htr, hts⟩ := setup_players_split names kbd mice s
  refine ⟨?_, ?_, ?_⟩
  · refine ⟨(cleanup_extra_masters (names.drop 1) s).1,
      (createLoop (names.drop 1) (cleanup_extra_masters (names.drop 1) s).2).1,
      (reattachKbdLoop true kbd (createLoop (names.drop 1)
        (cleanup_extra_masters (names.drop 1) s).2).2).1 ++ ts,
      htr, cleanupLoop_shape _ _ _, createLoop_shape _ _, ?_⟩
    intro c hc
    rcases List.mem_append.mp hc with hc | hc
    · exact reattachKbdLoop_shape _ _ _ c hc
    · exact hts c hc
  · intro n hc
    rw [htr] at hc
    rcases List.mem_append.mp hc with hc | hc
    · rcases List.mem_append.mp hc with hc | hc
      · have := cleanupLoop_shape _ _ _ _ hc
        simp [isRemoveCmd] at this
      · exact (createLoop_mem_create _ _ n hc).2
    · rcases List.mem_append.mp hc with hc | hc
      · have := reattachKbdLoop_shape _ _ _ _ hc
        simp [isReattachCmd] at this
      · have := hts _ hc
        simp [isReattachCmd] at this
  · intro n hc
    have hwf1 : WF (setup_players names kbd mice s).2 :=
      WF_setup_players names kbd mice s hwf
    have hex1 : ∀ nn ∈ names.drop 1,
        kbdExists ((setup_players names kbd mice s).2).devices nn :=
      kbdExists_setup_players names kbd mice s
    obtain ⟨ts2, htr2, hts2⟩ :=
      setup_players_split names kbd mice (setup_players names kbd mice s).2
    rw [htr2] at hc
    rcases List.mem_append.mp hc with hc | hc
    · rcases List.mem_append.mp hc with hc | hc
      · have := cleanupLoop_shape _ _ _ _ hc
        simp [isRemoveCmd] at this
      · obtain ⟨hn, hfind⟩ := createLoop_mem_create _ _ n hc
        have hkept : kbdExists ((cleanup_extra_masters (names.drop 1)
            (setup_players names kbd mice s).2).2).devices n := by
          apply cleanupLoop_preserves_kept (get_extra_masters
              ((setup_players names kbd mice s).2).devices) (names.drop 1)
              (setup_players names kbd mice s).2
              ((setup_players names kbd mice s).2).devices n hn hwf1.1
              (shadows_refl _) ?_ (hex1 n hn)
          intro pr hpr
          exact get_extra_masters_mem hpr
        have := find_mk_isSome_iff.mpr hkept
        rw [hfind] at this
        simp at this
    · rcases List.mem_append.mp hc with hc | hc
      · have := reattachKbdLoop_shape _ _ _ _ hc
        simp [isReattachCmd] at this
      · have := hts2 _ hc
        simp [isReattachCmd] at this

theorem claim_C4_witness :
    WF demoState ∧
    (∀ n, Cmd.createMaster n ∉
      (setup_players ["P1", "P2"] [("P1", 7), ("P2", 9)] none
        (setup_players ["P1", "P2"] [("P1", 7), ("P2", 9)] none demoState).2).1) :=
  ⟨by decide,
   (claim_C4_order_idempotent ["P1", "P2"] [("P1", 7), ("P2", 9)] none demoState
     (by decide)).2.2⟩

/-- C5: the first claimed keyboard is always reattached to the system
default master keyboard (`VIRTUAL_CORE_KEYBOARD`, id 3); no master pair
is created for the first player's name (when it is not reused by a later
player); and every later player's claimed keyboard is reattached to the
master keyboard named `<player> keyboard`, whose id is recorded in the
final server state. -/
theorem claim_C5_routing (names : List String) (kbd : List (String × Nat))
    (mice : Option (List (String × Nat))) (s : XState) :
    (∀ p₀ k₀ rest, kbd = (p₀, k₀) :: rest →
      Cmd.reattach k₀ VIRTUAL_CORE_KEYBOARD ∈ (setup_players names kbd mice s).1) ∧
    (∀ n₀, names.head? = some n₀ → n₀ ∉ names.drop 1 →
      Cmd.createMaster n₀ ∉ (setup_players names kbd mice s).1) ∧
    (∀ p k, (p, k) ∈ kbd.drop 1 → p ∈ names.drop 1 →
      ∃ mid, Cmd.reattach k mid ∈ (setup_players names kbd mice s).1 ∧
        kbdExistsWithId ((setup_players names kbd mice s).2).devices p mid) := by
  obtain ⟨ts, htr, hts⟩ := setup_players_split names kbd mice s
  refine ⟨?_, ?_, ?_⟩
  · rintro p₀ k₀ rest rfl
    rw [htr]
    refine List.mem_append.mpr (Or.inr (List.mem_append.mpr (Or.inl ?_)))
    rw [reattachKbdLoop_first]
    exact List.mem_cons_self _ _
  · intro n₀ _hh hnot hc
    rw [htr] at hc
    rcases List.mem_append.mp hc with hc | hc
    · rcases List.mem_append.mp hc with hc | hc
      · have := cleanupLoop_shape _ _ _ _ hc
        simp [isRemoveCmd] at this
      · exact hnot (createLoop_mem_create _ _ n₀ hc).1
    · rcases List.mem_append.mp hc with hc | hc
      · have := reattachKbdLoop_shape _ _ _ _ hc
        simp [isReattachCmd] at this
      · have := hts _ hc
        simp [isReattachCmd] at this
  · intro p k hmem hp
    cases kbd with
    | nil => cases hmem
    | cons e rest =>
      have hmem2 : (p, k) ∈ rest := by simpa using hmem
      have hex2 : kbdExists ((createLoop (names.drop 1)
          (cleanup_extra_masters (names.drop 1) s).2).2).devices p :=
        kbdExists_createLoop _ _ p hp
      have hex3 : kbdExists ((runCmd (Cmd.reattach e.2 VIRTUAL_CORE_KEYBOARD)
          (createLoop (names.drop 1)
            (cleanup_extra_masters (names.drop 1) s).2).2)).devices p :=
        exists_mem_applyReattach (fun _ _ hq => hq) _ _ _ hex2
      obtain ⟨mid, hcmd, hwid⟩ := reattachKbdLoop_later rest _ p k hmem2 hex3
      refine ⟨mid, ?_, ?_⟩
      · rw [htr]
        refine List.mem_append.mpr (Or.inr (List.mem_append.mpr (Or.inl ?_)))
        rw [reattachKbdLoop_first]
        exact List.mem_cons_of_mem _ hcmd
      · cases mice with
        | none =>
          rw [setup_players_state_none]
          rw [reattachKbdLoop_first]
          exact hwid
        | some m =>
          rw [setup_players_state_some]
          rw [reattachKbdLoop_first]
          exact kbdExistsWithId_reattachMouseLoop _ _ _ hwid

theorem claim_C5_witness :
    Cmd.reattach 7 VIRTUAL_CORE_KEYBOARD ∈
      (setup_players ["P1", "P2"] [("P1", 7), ("P2", 9)] none demoState).1 ∧
    ∃ mid, Cmd.reattach 9 mid ∈
        (setup_players ["P1", "P2"] [("P1", 7), ("P2", 9)] none demoState).1 ∧
      kbdExistsWithId ((setup_players ["P1", "P2"] [("P1", 7), ("P2", 9)] none
        demoState).2).devices "P2" mid :=
  ⟨(claim_C5_routing ["P1", "P2"] [("P1", 7), ("P2", 9)] none demoState).1
      "P1" 7 [("P2", 9)] rfl,
   (claim_C5_routing ["P1", "P2"] [("P1", 7), ("P2", 9)] none demoState).2.2
      "P2" 9 (by decide) (by decide)⟩

/-- C6: every remove-master command issued by the cleanup names the
default master pointer id 2 and default master keyboard id 3 as the
destinations for the orphaned slaves; a snapshot pair whose stem is
outside the keep-list is indeed removed with those destinations; and for
every prior attachment state the command's effect sends each slave
pointer of the removed pointer to id 2 and each slave keyboard of the
removed keyboard to id 3. -/
theorem claim_C6_remove_to_default (keep : List String) (s : XState) :
    (∀ pid a b, Cmd.removeMaster pid a b ∈ (cleanup_extra_masters keep s).1 →
      a = VIRTUAL_CORE_POINTER ∧ b = VIRTUAL_CORE_KEYBOARD) ∧
    (∀ pr ∈ get_extra_masters s.devices, extractPfx pr.1.name ∉ keep →
      Cmd.removeMaster pr.1.deviceid VIRTUAL_CORE_POINTER VIRTUAL_CORE_KEYBOARD ∈
        (cleanup_extra_masters keep s).1) ∧
    (∀ (s' : XState) (pid : Nat) (q : Device),
      s'.devices.find? (fun d => d.use == MASTER_POINTER && d.deviceid == pid) =
        some q →
      (∀ d ∈ s'.devices, d.use = SLAVE_POINTER → d.attachment = pid →
        { d with attachment := VIRTUAL_CORE_POINTER } ∈
          (applyRemoveMaster pid VIRTUAL_CORE_POINTER VIRTUAL_CORE_KEYBOARD
            s').devices) ∧
      (∀ d ∈ s'.devices, ∀ kb,
        s'.devices.find? (fun d => d.use == MASTER_KEYBOARD &&
          d.name == extractPfx q.name ++ " keyboard") = some kb →
        d.use = SLAVE_KEYBOARD → d.attachment = kb.deviceid →
        { d with attachment := VIRTUAL_CORE_KEYBOARD } ∈
          (applyRemoveMaster pid VIRTUAL_CORE_POINTER VIRTUAL_CORE_KEYBOARD
            s').devices)) := by
  refine ⟨?_, ?_, ?_⟩
  · intro pid a b h
    obtain ⟨ha, hb, _⟩ := (cleanupLoop_trace _ _ _ _ _ _).mp h
    exact ⟨ha, hb⟩
  · intro pr hpr hk
    exact (cleanupLoop_trace _ _ _ _ _ _).mpr ⟨rfl, rfl, pr, hpr, rfl, hk⟩
  · intro s' pid q hq
    exact applyRemoveMaster_orphans s' pid _ _ q hq

theorem claim_C6_witness :
    Cmd.removeMaster 10 VIRTUAL_CORE_POINTER VIRTUAL_CORE_KEYBOARD ∈
      (cleanup_extra_masters [] demoStaleState).1 :=
  (claim_C6_remove_to_default [] demoStaleState).2.1 (demoAliceP, demoAliceK)
    (by decide) (by decide)

end XInput2
